import Mathlib

/-!
Verification of the 3d_printed_microscope core against its specification.

The definitions below are a shallow embedding of the relevant parts of
`microscope/arduino_stage.py` and `microscope/microscope_3d.py` (Python 2 +
numpy).  Machine integers are modelled as `ℤ`, sub-pixel camera coordinates
(floats in the source) as `ℚ`, and the serial transport as the list of
commands sent so far.  Python `None` returns are modelled as `none`.
-/

set_option autoImplicit false

/-- An integer 3-vector `(x, y, z)`, as used for stage positions and
displacements (numpy `np.array([x, y, z])` in the source). -/
abbrev Vec3 := ℤ × ℤ × ℤ

/-- Componentwise addition, `np.add`. -/
def vadd (a b : Vec3) : Vec3 := (a.1 + b.1, a.2.1 + b.2.1, a.2.2 + b.2.2)

/-- Componentwise subtraction, `np.subtract`. -/
def vsub (a b : Vec3) : Vec3 := (a.1 - b.1, a.2.1 - b.2.1, a.2.2 - b.2.2)

/-- Componentwise negation, `-1 * self._pos` in `centre_stage`. -/
def vneg (a : Vec3) : Vec3 := (-a.1, -a.2.1, -a.2.2)

/-- The constant `Stage._XYZ_BOUND = np.array([5000, 5000, 5000])` (one shared bound per axis). -/
def XYZ_BOUND : ℤ := 5000

/-- The constant `Stage._MICROSTEPS = 16`: microsteps per full step. -/
def MICROSTEPS : ℤ := 16

/-- A command written to the serial transport.  The source formats these as
the strings `"move_rel X Y Z\n"`, `"fast_move X Y Z\n"` and `"release\n"`;
only the command kind and its integer arguments are relevant here. -/
inductive Command where
  | moveRel (v : Vec3)
  | fastMove (v : Vec3)
  | release
deriving DecidableEq, Repr

/-- The observable state of `arduino_stage.Stage`: the tracked position
`self._pos` and the sequence of commands sent to the transport so far
(oldest first).  The source's `_query` either writes to the serial port or
is a no-op under emulation; in both cases the command stream is the whole
observable effect. -/
structure Stage where
  pos : Vec3
  sent : List Command
deriving DecidableEq, Repr

/-- The freshly constructed stage: `self._pos = np.array([0, 0, 0])`,
nothing sent yet. -/
def stage0 : Stage := { pos := (0, 0, 0), sent := [] }

/-- The remap `Stage._motor_coord(x, y, z) = (-z, -x, -y)`: the fixed axis
permutation/sign remap applied to every motor command. -/
def motor_coord (v : Vec3) : Vec3 := (-v.2.2, -v.1, -v.2.1)

/-- The inverse of `motor_coord`.  Not present in the source; it is the
unique two-sided inverse of the remap, written down to state invertibility. -/
def motor_coord_inv (v : Vec3) : Vec3 := (-v.2.1, -v.2.2, -v.1)

/-- The bounds test of `move_rel`/`fast_move`:
`np.all(np.less_equal(np.absolute(new_pos), self._XYZ_BOUND))`. -/
def inBounds (p : Vec3) : Bool :=
  decide (|p.1| ≤ XYZ_BOUND) && decide (|p.2.1| ≤ XYZ_BOUND) &&
    decide (|p.2.2| ≤ XYZ_BOUND)

/-- The method `Stage.release()`: sends `"release\n"` to the transport (and returns
`None`: the `return ret` line is commented out in the source). -/
def releaseStage (s : Stage) : Stage := { s with sent := s.sent ++ [Command.release] }

/-- The method `Stage.move_rel(vector, release, override)`.  Computes
`new_pos = self._pos + vector`; if all components of `new_pos` are within
bounds (or `override`), sends `move_rel` with the remapped displacement,
sets `self._pos = new_pos` and, when `release`, also sends `release`.
Otherwise a local `ret = "bounds_error"` is assigned and nothing happens.
Either way the Python function returns `None`: the trailing `return ret`
is commented out, so the second component is always `none`.  The 3-component
arity assertion of the source is enforced here by the `Vec3` type. -/
def move_rel (s : Stage) (vector : Vec3) (rel ovr : Bool) : Stage × Option String :=
  let new_pos := vadd s.pos vector
  if inBounds new_pos || ovr then
    let s1 : Stage := { pos := new_pos, sent := s.sent ++ [Command.moveRel (motor_coord vector)] }
    ((if rel then releaseStage s1 else s1), none)
  else
    (s, none)

/-- The method `Stage.fast_move(vector, release, override)`.  Same bounds test as
`move_rel` on the raw (undivided) vector; then each component is divided by
`_MICROSTEPS = 16` with `r[i] / 16` — Python 2 integer division on numpy
integers, which is floor division (rounds toward negative infinity), hence
`Int.fdiv` — the remapped quotients are sent as a `fast_move` command, and
`self._pos` is updated by the full undivided vector. -/
def fast_move (s : Stage) (vector : Vec3) (rel ovr : Bool) : Stage × Option String :=
  let new_pos := vadd s.pos vector
  if inBounds new_pos || ovr then
    let steps : Vec3 :=
      (Int.fdiv vector.1 MICROSTEPS, Int.fdiv vector.2.1 MICROSTEPS,
        Int.fdiv vector.2.2 MICROSTEPS)
    let s1 : Stage := { pos := new_pos, sent := s.sent ++ [Command.fastMove (motor_coord steps)] }
    ((if rel then releaseStage s1 else s1), none)
  else
    (s, none)

/-- The method `Stage.move_to_pos(vector, release, override)`: delegates
`move_rel(vector - self._pos, release, override)` and returns its result. -/
def move_to_pos (s : Stage) (vector : Vec3) (rel ovr : Bool) : Stage × Option String :=
  move_rel s (vsub vector s.pos) rel ovr

/-- The method `Stage.centre_stage()`: `new_pos = -1 * self._pos; self.move_rel(new_pos)`
(with the default `release=True, override=False`). -/
def centre_stage (s : Stage) : Stage × Option String :=
  move_rel s (vneg s.pos) true false

/-! ### `microscope_3d.Microscope`: visual servo loop and calibration

The camera/locator collaborator is a black box: successive calls to
`camera.find_template` are modelled by a function `loc : ℕ → ℚ × ℚ` giving
the pixel position returned by the `k`-th call of the routine under study.
Sub-pixel (`decimal=True`) pixel coordinates, floats in the source, are
modelled as `ℚ`. -/

/-- A failure that aborts a run: a failing Python `assert` in
`_camera_centre_move`, or the `NameError` raised by the reference to the
module-level name `m` in `centre_on_template` when that name is unbound. -/
inductive RunError where
  | assertFailed
  | nameError
deriving DecidableEq, Repr

/-- The constant `Microscope._UM_PER_PIXEL = 0.4846`. -/
def UM_PER_PIXEL : ℚ := 4846 / 10000

/-- The constant `Microscope._CAMERA_TO_STAGE_MATRIX = np.array([[5.2, 7.0], [6.3, -5.6]])`,
stored as ((row0), (row1)). -/
def CAMERA_TO_STAGE_MATRIX : (ℚ × ℚ) × (ℚ × ℚ) := ((26 / 5, 7), (63 / 10, -28 / 5))

/-- The pixel move computed by `Microscope._camera_centre_move`:
`(-(template_pos[0] - width/2.0), -(template_pos[1] - height/2.0))`. -/
def cameraMoveOf (width height : ℚ) (template_pos : ℚ × ℚ) : ℚ × ℚ :=
  (-(template_pos.1 - width / 2), -(template_pos.2 - height / 2))

/-- The method `Microscope._camera_centre_move`, given the position `template_pos`
returned by the locator: computes the pixel move, `assert`s each component
is within plus/minus half the frame dimension, and returns the pair
`(camera_move, template_pos)`; a failing assert raises. -/
def cameraCentreMove (width height : ℚ) (template_pos : ℚ × ℚ) :
    Except RunError ((ℚ × ℚ) × (ℚ × ℚ)) :=
  let camera_move := cameraMoveOf width height template_pos
  if (-(width / 2) ≤ camera_move.1 ∧ camera_move.1 ≤ width / 2) ∧
      (-(height / 2) ≤ camera_move.2 ∧ camera_move.2 ≤ height / 2) then
    Except.ok (camera_move, template_pos)
  else
    Except.error RunError.assertFailed

/-- The squared pixel distance scaled by `_UM_PER_PIXEL` squared.  The source
(`_camera_move_distance`) computes `sqrt(x^2 + y^2) * _UM_PER_PIXEL`; only
its comparison against the tolerance is ever used, and that comparison is
expressed on squares in `distExceeds` below. -/
def cameraMoveDistanceSq (camera_move : ℚ × ℚ) : ℚ :=
  (camera_move.1 ^ 2 + camera_move.2 ^ 2) * UM_PER_PIXEL ^ 2

/-- The loop guard `self._camera_move_distance(camera_move) > tolerance` of
`centre_on_template`.  The source compares `sqrt(x^2+y^2) * c > tolerance`
with `c = _UM_PER_PIXEL > 0`; the left side is nonnegative, so the
comparison holds iff `tolerance < 0`, or `tolerance ≥ 0` and the squares
compare: `tolerance^2 < (x^2+y^2) * c^2`.  That equivalent form is exactly
representable over `ℚ`. -/
def distExceeds (camera_move : ℚ × ℚ) (tolerance : ℚ) : Bool :=
  decide (tolerance < 0) || decide (tolerance ^ 2 < cameraMoveDistanceSq camera_move)

/-- The conversion `np.trunc(q)` followed by `astype(int)`: round toward zero. -/
def truncQ (q : ℚ) : ℤ := if q < 0 then ⌈q⌉ else ⌊q⌋

/-- The stage move built in the body of the `centre_on_template` loop:
`np.dot(camera_move, _CAMERA_TO_STAGE_MATRIX)` (row vector times matrix),
a zero z-component appended, truncated toward zero to integer microsteps. -/
def stageMoveOf (camera_move : ℚ × ℚ) : Vec3 :=
  let sx := camera_move.1 * CAMERA_TO_STAGE_MATRIX.1.1 +
    camera_move.2 * CAMERA_TO_STAGE_MATRIX.2.1
  let sy := camera_move.1 * CAMERA_TO_STAGE_MATRIX.1.2 +
    camera_move.2 * CAMERA_TO_STAGE_MATRIX.2.2
  (truncQ sx, truncQ sy, 0)

/-- The record returned by `centre_on_template`:
`(iteration, np.array(camera_positions), np.array(stage_moves))`. -/
structure ServoRun where
  iteration : ℤ
  camera_positions : List (ℚ × ℚ)
  stage_moves : List Vec3
deriving DecidableEq, Repr

/-- The state `centre_on_template` touches: its own `self.stage`, and the
module-level name `m` (bound to another microscope's stage when the file
runs as a script and `centre_on_template` is invoked on a different
instance; `none` when the module is imported and `m` is unbound). -/
structure Env where
  selfStage : Stage
  globalM : Option Stage
deriving DecidableEq, Repr

/-- The `while` loop of `centre_on_template`, compiled to structural
recursion on `remaining = max_iterations - iteration` (so the guard
`iteration < max_iterations` holds exactly when `remaining > 0`).  `k` is
the index of the next locator call.  Each pass re-checks the distance
guard, increments `iteration`, converts `camera_move` to a stage move,
issues `move_rel(stage_move, release=False)`, appends the move and the
fresh camera position to the logs, and re-measures. -/
def servoLoop (loc : ℕ → ℚ × ℚ) (width height tolerance : ℚ) :
    ℕ → ℕ → ℕ → ℚ × ℚ → List (ℚ × ℚ) → List Vec3 → Stage →
    Except RunError (ℕ × List (ℚ × ℚ) × List Vec3 × Stage)
  | 0, iteration, _, _, camera_positions, stage_moves, st =>
    Except.ok (iteration, camera_positions, stage_moves, st)
  | remaining + 1, iteration, k, camera_move, camera_positions, stage_moves, st =>
    if distExceeds camera_move tolerance then
      let stage_move := stageMoveOf camera_move
      let st1 := (move_rel st stage_move false false).1
      match cameraCentreMove width height (loc k) with
      | Except.error e => Except.error e
      | Except.ok (cm1, p1) =>
        servoLoop loc width height tolerance remaining (iteration + 1) (k + 1) cm1
          (camera_positions ++ [p1]) (stage_moves ++ [stage_move]) st1
    else
      Except.ok (iteration, camera_positions, stage_moves, st)

/-- The method `Microscope.centre_on_template(template, tolerance, max_iterations,
release)`.  Measures once (logging the initial camera position), runs the
servo loop, then: if `release`, executes `m.stage.release()` — note `m`, the
module-level global, not `self` — and finally negates `iteration` when it
equals `max_iterations`, returning the run record. -/
def centre_on_template (env : Env) (loc : ℕ → ℚ × ℚ) (width height tolerance : ℚ)
    (max_iterations : ℕ) (rel : Bool) : Except RunError (ServoRun × Env) :=
  match cameraCentreMove width height (loc 0) with
  | Except.error e => Except.error e
  | Except.ok (cm0, p0) =>
    match servoLoop loc width height tolerance max_iterations 0 1 cm0 [p0] [] env.selfStage with
    | Except.error e => Except.error e
    | Except.ok (iter, camera_positions, stage_moves, st1) =>
      let iterZ : ℤ := if iter = max_iterations then -(iter : ℤ) else (iter : ℤ)
      let run : ServoRun :=
        { iteration := iterZ, camera_positions := camera_positions,
          stage_moves := stage_moves }
      if rel then
        match env.globalM with
        | none => Except.error RunError.nameError
        | some g =>
          Except.ok (run, { selfStage := st1, globalM := some (releaseStage g) })
      else
        Except.ok (run, { selfStage := st1, globalM := env.globalM })

/-- First component of a successful run's log lengths:
`(camera_positions.length, stage_moves.length)`. -/
def runLogLengths : Except RunError (ServoRun × Env) → Option (ℕ × ℕ)
  | Except.ok (r, _) => some (r.camera_positions.length, r.stage_moves.length)
  | Except.error _ => none

/-- The calibration square waypoints of `Microscope.calibrate`:
`[(D, D, 0), (D, -D, 0), (-D, -D, 0), (-D, D, 0)]`. -/
def posList (D : ℤ) : List Vec3 := [(D, D, 0), (D, -D, 0), (-D, -D, 0), (-D, D, 0)]

/-- The measurement `for p in pos:` loop of `calibrate`: for each waypoint,
an overshoot move to `init_stage_vector + p + [-32, -16, 0]` (backlash
correction), a move to `init_stage_vector + p`, a locator query, and the
displacement pair `(cam_pos - init_cam_pos, stage._pos[0:2] - init_stage_pos)`
appended to the two sample lists. -/
def calibLoop (loc : ℕ → ℚ × ℚ) (init_cam_pos : ℚ × ℚ) (init_stage_vector : Vec3)
    (init_stage_pos : ℤ × ℤ) :
    List Vec3 → ℕ → Stage → List (ℚ × ℚ) → List (ℤ × ℤ) →
    List (ℚ × ℚ) × List (ℤ × ℤ) × Stage
  | [], _, st, camAcc, stgAcc => (camAcc, stgAcc, st)
  | p :: rest, k, st, camAcc, stgAcc =>
    let st1 := (move_to_pos st (vadd (vadd init_stage_vector p) (-32, -16, 0)) false false).1
    let st2 := (move_to_pos st1 (vadd init_stage_vector p) false false).1
    let cam_pos := loc k
    let camD : ℚ × ℚ := (cam_pos.1 - init_cam_pos.1, cam_pos.2 - init_cam_pos.2)
    let stgD : ℤ × ℤ := (st2.pos.1 - init_stage_pos.1, st2.pos.2.1 - init_stage_pos.2)
    calibLoop loc init_cam_pos init_stage_vector init_stage_pos rest (k + 1) st2
      (camAcc ++ [camD]) (stgAcc ++ [stgD])

/-- The measurement phase of `Microscope.calibrate(template, D)`: the two
backlash-settling moves `move_to_pos([16, 16, 0])`, `move_to_pos([0, 0, 0])`,
the initial locator query and stage reference, the four-waypoint loop, then
`centre_stage()` and `release()`.  Returns the raw camera-displacement
samples, the raw stage-displacement samples, and the final stage state. -/
def calibrateMeasure (st : Stage) (loc : ℕ → ℚ × ℚ) (D : ℤ) :
    List (ℚ × ℚ) × List (ℤ × ℤ) × Stage :=
  let st1 := (move_to_pos st (16, 16, 0) false false).1
  let st2 := (move_to_pos st1 (0, 0, 0) false false).1
  let init_cam_pos := loc 0
  let init_stage_vector := st2.pos
  let init_stage_pos : ℤ × ℤ := (init_stage_vector.1, init_stage_vector.2.1)
  let r := calibLoop loc init_cam_pos init_stage_vector init_stage_pos (posList D) 1 st2 [] []
  let st3 := (centre_stage r.2.2).1
  (r.1, r.2.1, releaseStage st3)

/-- The update `camera_displacement -= np.mean(camera_displacement, axis=0)`: subtract
the componentwise mean of the samples from each sample. -/
def meanCenter (xs : List (ℚ × ℚ)) : List (ℚ × ℚ) :=
  let n : ℚ := (xs.length : ℚ)
  let m1 := (xs.map Prod.fst).sum / n
  let m2 := (xs.map Prod.snd).sum / n
  xs.map fun p => (p.1 - m1, p.2 - m2)

/-- The two matrices `calibrate` passes to `np.linalg.lstsq`: the
mean-centered camera displacements and the stage displacements exactly as
measured.  (The least-squares solve itself consumes these unchanged.) -/
def calibrateLstsqInputs (st : Stage) (loc : ℕ → ℚ × ℚ) (D : ℤ) :
    List (ℚ × ℚ) × List (ℤ × ℤ) :=
  let r := calibrateMeasure st loc D
  (meanCenter r.1, r.2.1)

/-! ### Concrete scenarios used by the theorems below -/

/-- Equality of `Except` results is decidable componentwise. -/
instance {e a : Type} [DecidableEq e] [DecidableEq a] : DecidableEq (Except e a) := fun x y =>
  match x, y with
  | Except.ok u, Except.ok v =>
    if h : u = v then isTrue (by rw [h]) else isFalse (by intro hh; cases hh; exact h rfl)
  | Except.ok _, Except.error _ => isFalse (by intro hh; cases hh)
  | Except.error _, Except.ok _ => isFalse (by intro hh; cases hh)
  | Except.error u, Except.error v =>
    if h : u = v then isTrue (by rw [h]) else isFalse (by intro hh; cases hh; exact h rfl)

/-- A microscope whose module was imported: the module-level name `m` is unbound. -/
def env0 : Env := { selfStage := stage0, globalM := none }

/-- A microscope running while the module-level `m` is bound to another
(fresh) microscope's stage. -/
def envG : Env := { selfStage := stage0, globalM := some stage0 }

/-- A locator that always reports the template at the frame's top-left
corner `(0, 0)`: in-frame, but never within tolerance of the centre. -/
def locFar : ℕ → ℚ × ℚ := fun _ => (0, 0)

/-- A locator that always reports the template exactly at the centre of a
640 times 480 frame. -/
def locCentred : ℕ → ℚ × ℚ := fun _ => (320, 240)

/-- A locator whose first measurement is far from centre and every later
measurement is exactly centred: the servo loop converges on the iteration
that consumes the second measurement. -/
def locLastMinute : ℕ → ℚ × ℚ := fun k => if k = 0 then (0, 0) else (320, 240)

/-- The run record produced by `centre_on_template` with `locFar`, a 640
times 480 frame, tolerance 1 and two iterations allowed: the initial
measurement plus one per iteration, and one logged move per iteration (the
second move is rejected by the stage's bounds check but logged anyway). -/
def runC2 : ServoRun :=
  { iteration := -2, camera_positions := [(0, 0), (0, 0), (0, 0)],
    stage_moves := [(3176, 896, 0), (3176, 896, 0)] }

/-- The final environment of the `runC2` scenario. -/
def envC2 : Env :=
  { selfStage := { pos := (3176, 896, 0), sent := [Command.moveRel (0, -3176, -896)] },
    globalM := none }

set_option allowUnsafeReducibility true
attribute [local semireducible] Rat.mul Rat.add Rat.sub Rat.inv Rat.ofScientific

/-! ### Claims about the stage motion controller -/

/-- C9: the axis remap `(x, y, z) → (-z, -x, -y)` used for every motor
command is an invertible signed permutation — composing it with its inverse
in either order returns the original integer 3-vector exactly. -/
theorem C9_motor_coord_invertible (v : Vec3) :
    motor_coord_inv (motor_coord v) = v ∧ motor_coord (motor_coord_inv v) = v := by
  obtain ⟨x, y, z⟩ := v
  constructor <;> simp [motor_coord, motor_coord_inv]

/-- C4: if every component of `pos + v` is within the inclusive bound
`XYZ_BOUND = 5000`, then `move_rel(v)` updates the tracked position to
exactly `pos + v`, sends the remapped displacement as a `move_rel` command
followed by a `release` command unless hold (`rel = false`) was requested,
and returns `None`. -/
theorem C4_move_rel_in_bounds (s : Stage) (v : Vec3) (rel : Bool)
    (h1 : |s.pos.1 + v.1| ≤ XYZ_BOUND) (h2 : |s.pos.2.1 + v.2.1| ≤ XYZ_BOUND)
    (h3 : |s.pos.2.2 + v.2.2| ≤ XYZ_BOUND) :
    (move_rel s v rel false).1.pos = vadd s.pos v ∧
    (move_rel s v rel false).1.sent =
      s.sent ++ [Command.moveRel (motor_coord v)] ++
        (if rel then [Command.release] else []) ∧
    (move_rel s v rel false).2 = none := by
  have hb : inBounds (vadd s.pos v) = true := by
    simp only [inBounds, vadd, Bool.and_eq_true, decide_eq_true_eq]
    exact ⟨⟨h1, h2⟩, h3⟩
  cases rel <;> simp [move_rel, hb, releaseStage]

/-- C4 witness: from the origin, the boundary displacement `(5000, -5000, 0)`
is accepted (the bound is inclusive) and behaves as stated. -/
theorem C4_move_rel_in_bounds_witness :
    (|stage0.pos.1 + (5000 : ℤ)| ≤ XYZ_BOUND ∧ |stage0.pos.2.1 + (-5000 : ℤ)| ≤ XYZ_BOUND ∧
      |stage0.pos.2.2 + (0 : ℤ)| ≤ XYZ_BOUND) ∧
    ((move_rel stage0 (5000, -5000, 0) true false).1.pos = vadd stage0.pos (5000, -5000, 0) ∧
      (move_rel stage0 (5000, -5000, 0) true false).1.sent =
        stage0.sent ++ [Command.moveRel (motor_coord (5000, -5000, 0))] ++
          (if true then [Command.release] else []) ∧
      (move_rel stage0 (5000, -5000, 0) true false).2 = none) :=
  ⟨⟨by decide, by decide, by decide⟩,
    C4_move_rel_in_bounds stage0 (5000, -5000, 0) true (by decide) (by decide) (by decide)⟩

/-- C3 counterexample: for the violating displacement `(5001, 0, 0)` from the
origin, `move_rel` leaves the state unchanged and sends nothing, but it
returns `None` — the very same caller-visible result as an in-bounds call —
so no bounds violation is reported to the caller (the `return ret` carrying
`"bounds_error"` is commented out in the source). -/
theorem C3_counterexample :
    move_rel stage0 (5001, 0, 0) true false = (stage0, none) ∧
    (move_rel stage0 (5001, 0, 0) true false).2 = (move_rel stage0 (1, 0, 0) true false).2 := by
  decide

/-- C3 (amended): if some component of `pos + v` exceeds the bound and
`override` is false, `move_rel(v)` leaves the tracked position and the
command stream unchanged and returns `None`; the bounds violation is only
recorded in a local variable and is not reported to the caller. -/
theorem C3_move_rel_bounds_violation (s : Stage) (v : Vec3) (rel : Bool)
    (h : XYZ_BOUND < |s.pos.1 + v.1| ∨ XYZ_BOUND < |s.pos.2.1 + v.2.1| ∨
      XYZ_BOUND < |s.pos.2.2 + v.2.2|) :
    move_rel s v rel false = (s, none) := by
  have hb : inBounds (vadd s.pos v) = false := by
    have : ¬ inBounds (vadd s.pos v) = true := by
      simp only [inBounds, vadd, Bool.and_eq_true, decide_eq_true_eq]
      rintro ⟨⟨a1, a2⟩, a3⟩
      rcases h with h | h | h <;> omega
    exact Bool.not_eq_true _ |>.mp this
  simp [move_rel, hb]

/-- C3 witness: the amended statement at the concrete violating input
`(5001, 0, 0)` from the origin. -/
theorem C3_move_rel_bounds_violation_witness :
    (XYZ_BOUND < |stage0.pos.1 + (5001 : ℤ)| ∨ XYZ_BOUND < |stage0.pos.2.1 + (0 : ℤ)| ∨
      XYZ_BOUND < |stage0.pos.2.2 + (0 : ℤ)|) ∧
    move_rel stage0 (5001, 0, 0) false false = (stage0, none) :=
  ⟨Or.inl (by decide),
    C3_move_rel_bounds_violation stage0 (5001, 0, 0) false (Or.inl (by decide))⟩

/-- C8: `centre_stage()` from any state issues exactly
`move_rel(-pos)` (so a `move_rel` command with the remapped `-pos` followed
by `release` actually reaches the transport — the target `(0,0,0)` always
passes the bounds check) and leaves the tracked position at `(0, 0, 0)`. -/
theorem C8_centre_stage (s : Stage) :
    centre_stage s = move_rel s (vneg s.pos) true false ∧
    (centre_stage s).1.pos = (0, 0, 0) ∧
    (centre_stage s).1.sent =
      s.sent ++ [Command.moveRel (motor_coord (vneg s.pos)), Command.release] := by
  have hzero : vadd s.pos (vneg s.pos) = (0, 0, 0) := by
    simp [vadd, vneg]
  have hb : inBounds (0 : Vec3) = true := by decide
  refine ⟨rfl, ?_, ?_⟩ <;>
    simp [centre_stage, move_rel, hzero, hb, releaseStage, Prod.mk_zero_zero]

/-- C1 counterexample: from the origin, `fast_move([17, -17, 16])` divides by
`_MICROSTEPS = 16` with Python 2 floor division, producing step counts
`(1, -2, 1)` — not the `(1, -1, 1)` that truncation toward zero would give —
and sends them remapped as `fast_move (-1, -1, 2)`; `motor_coord (1, -1, 1)`
would instead be `(-1, -1, 1)`.  The tracked position is still updated by
the full vector. -/
theorem C1_counterexample :
    (Int.fdiv 17 MICROSTEPS, Int.fdiv (-17) MICROSTEPS, Int.fdiv 16 MICROSTEPS) =
      ((1, -2, 1) : Vec3) ∧
    ((1, -2, 1) : Vec3) ≠ (1, -1, 1) ∧
    fast_move stage0 (17, -17, 16) true false =
      ({ pos := (17, -17, 16), sent := [Command.fastMove (-1, -1, 2), Command.release] },
        none) ∧
    Command.fastMove (motor_coord (1, -2, 1)) ≠ Command.fastMove (motor_coord (1, -1, 1)) := by
  decide

/-- C1 (amended): for any in-bounds displacement, `fast_move` issues the
componentwise floor quotients by 16 (Python 2 integer division rounds toward
negative infinity; each quotient `q` satisfies `16q ≤ v < 16q + 16`, so for
`[17, -17, 16]` the device step counts are `(1, -2, 1)`, the floor
remainders being discarded) as a remapped `fast_move` command, while
updating the tracked position by the full undivided vector. -/
theorem C1_fast_move_floor_division (s : Stage) (v : Vec3) (rel : Bool)
    (h1 : |s.pos.1 + v.1| ≤ XYZ_BOUND) (h2 : |s.pos.2.1 + v.2.1| ≤ XYZ_BOUND)
    (h3 : |s.pos.2.2 + v.2.2| ≤ XYZ_BOUND) :
    (fast_move s v rel false).1.pos = vadd s.pos v ∧
    (fast_move s v rel false).1.sent =
      s.sent ++ [Command.fastMove (motor_coord
        (Int.fdiv v.1 MICROSTEPS, Int.fdiv v.2.1 MICROSTEPS, Int.fdiv v.2.2 MICROSTEPS))] ++
        (if rel then [Command.release] else []) ∧
    (MICROSTEPS * Int.fdiv v.1 MICROSTEPS ≤ v.1 ∧
      v.1 < MICROSTEPS * Int.fdiv v.1 MICROSTEPS + MICROSTEPS) ∧
    (MICROSTEPS * Int.fdiv v.2.1 MICROSTEPS ≤ v.2.1 ∧
      v.2.1 < MICROSTEPS * Int.fdiv v.2.1 MICROSTEPS + MICROSTEPS) ∧
    (MICROSTEPS * Int.fdiv v.2.2 MICROSTEPS ≤ v.2.2 ∧
      v.2.2 < MICROSTEPS * Int.fdiv v.2.2 MICROSTEPS + MICROSTEPS) ∧
    (fast_move s v rel false).2 = none := by
  have hb : inBounds (vadd s.pos v) = true := by
    simp only [inBounds, vadd, Bool.and_eq_true, decide_eq_true_eq]
    exact ⟨⟨h1, h2⟩, h3⟩
  have hfd : ∀ a : ℤ, MICROSTEPS * Int.fdiv a MICROSTEPS ≤ a ∧
      a < MICROSTEPS * Int.fdiv a MICROSTEPS + MICROSTEPS := by
    intro a
    rw [Int.fdiv_eq_ediv a (by decide : (0 : ℤ) ≤ MICROSTEPS)]
    show 16 * (a / 16) ≤ a ∧ a < 16 * (a / 16) + 16
    omega
  refine ⟨?_, ?_, hfd v.1, hfd v.2.1, hfd v.2.2, ?_⟩ <;>
    cases rel <;> simp [fast_move, hb, releaseStage]

/-- C1 witness: the amended behaviour at the concrete input `[17, -17, 16]`
from the origin. -/
theorem C1_fast_move_floor_division_witness :
    (|stage0.pos.1 + (17 : ℤ)| ≤ XYZ_BOUND ∧ |stage0.pos.2.1 + (-17 : ℤ)| ≤ XYZ_BOUND ∧
      |stage0.pos.2.2 + (16 : ℤ)| ≤ XYZ_BOUND) ∧
    ((fast_move stage0 (17, -17, 16) true false).1.pos = vadd stage0.pos (17, -17, 16) ∧
      (fast_move stage0 (17, -17, 16) true false).1.sent =
        stage0.sent ++ [Command.fastMove (motor_coord
          (Int.fdiv 17 MICROSTEPS, Int.fdiv (-17) MICROSTEPS, Int.fdiv 16 MICROSTEPS))] ++
          (if true then [Command.release] else []) ∧
      (MICROSTEPS * Int.fdiv 17 MICROSTEPS ≤ (17 : ℤ) ∧
        (17 : ℤ) < MICROSTEPS * Int.fdiv 17 MICROSTEPS + MICROSTEPS) ∧
      (MICROSTEPS * Int.fdiv (-17) MICROSTEPS ≤ (-17 : ℤ) ∧
        (-17 : ℤ) < MICROSTEPS * Int.fdiv (-17) MICROSTEPS + MICROSTEPS) ∧
      (MICROSTEPS * Int.fdiv 16 MICROSTEPS ≤ (16 : ℤ) ∧
        (16 : ℤ) < MICROSTEPS * Int.fdiv 16 MICROSTEPS + MICROSTEPS) ∧
      (fast_move stage0 (17, -17, 16) true false).2 = none) :=
  ⟨⟨by decide, by decide, by decide⟩,
    C1_fast_move_floor_division stage0 (17, -17, 16) true (by decide) (by decide) (by decide)⟩

/-! ### Claims about the visual servo loop -/

/-- Invariant of the servo `while` loop: on normal exit, each executed
iteration appended exactly one camera position and one stage move to the
logs, and the final iteration counter lies between its initial value and
the initial value plus the remaining budget. -/
theorem servoLoop_ok_lengths (loc : ℕ → ℚ × ℚ) (width height tolerance : ℚ) :
    ∀ (remaining iteration k : ℕ) (cm : ℚ × ℚ) (camPos : List (ℚ × ℚ)) (moves : List Vec3)
      (st : Stage) (it : ℕ) (cps : List (ℚ × ℚ)) (mvs : List Vec3) (stOut : Stage),
      servoLoop loc width height tolerance remaining iteration k cm camPos moves st =
        Except.ok (it, cps, mvs, stOut) →
      cps.length + iteration = camPos.length + it ∧
      mvs.length + iteration = moves.length + it ∧
      iteration ≤ it ∧ it ≤ iteration + remaining := by
  intro remaining
  induction remaining with
  | zero =>
    intro iteration k cm camPos moves st it cps mvs stOut h
    simp only [servoLoop, Except.ok.injEq, Prod.mk.injEq] at h
    obtain ⟨h1, h2, h3, _⟩ := h
    subst h1; subst h2; subst h3
    omega
  | succ r ih =>
    intro iteration k cm camPos moves st it cps mvs stOut h
    rw [servoLoop] at h
    by_cases hd : distExceeds cm tolerance
    · rw [if_pos hd] at h
      cases hc : cameraCentreMove width height (loc k) with
      | error e => rw [hc] at h; simp at h
      | ok v =>
        rw [hc] at h
        obtain ⟨cm1, p1⟩ := v
        have := ih (iteration + 1) (k + 1) cm1 (camPos ++ [p1])
          (moves ++ [stageMoveOf cm]) ((move_rel st (stageMoveOf cm) false false).1)
          it cps mvs stOut h
        simp only [List.length_append, List.length_cons, List.length_nil] at this
        omega
    · rw [if_neg hd] at h
      simp only [Except.ok.injEq, Prod.mk.injEq] at h
      obtain ⟨h1, h2, h3, _⟩ := h
      subst h1; subst h2; subst h3
      omega

/-- C2 (amended): on every successful return of `centre_on_template`, the
camera-position log has exactly one more entry than the stage-move log (the
initial measurement is logged before the loop); in particular, whenever the
returned iteration counter is `-max_iterations`, the stage-move log has
length `max_iterations` and the camera-position log `max_iterations + 1`. -/
theorem C2_servo_log_lengths (env : Env) (loc : ℕ → ℚ × ℚ) (width height tolerance : ℚ)
    (max_iterations : ℕ) (rel : Bool) (run : ServoRun) (envOut : Env)
    (h : centre_on_template env loc width height tolerance max_iterations rel =
      Except.ok (run, envOut)) :
    run.camera_positions.length = run.stage_moves.length + 1 ∧
    (run.iteration = -(max_iterations : ℤ) → run.stage_moves.length = max_iterations) := by
  unfold centre_on_template at h
  split at h
  · simp at h
  · rename_i cm0 p0 hc0
    split at h
    · simp at h
    · rename_i it cps mvs stOut hsl
      have hlen := servoLoop_ok_lengths loc width height tolerance max_iterations 0 1 cm0
        [p0] [] env.selfStage it cps mvs stOut hsl
      simp only [List.length_cons, List.length_nil] at hlen
      have hrun : run.iteration = (if it = max_iterations then -(it : ℤ) else (it : ℤ)) ∧
          run.camera_positions = cps ∧ run.stage_moves = mvs := by
        cases rel with
        | false =>
          simp only [Bool.false_eq_true, if_false, Except.ok.injEq, Prod.mk.injEq] at h
          obtain ⟨hr, -⟩ := h
          subst hr
          exact ⟨rfl, rfl, rfl⟩
        | true =>
          simp only [if_true] at h
          cases hg : env.globalM with
          | none => rw [hg] at h; simp at h
          | some g =>
            rw [hg] at h
            simp only [Except.ok.injEq, Prod.mk.injEq] at h
            obtain ⟨hr, -⟩ := h
            subst hr
            exact ⟨rfl, rfl, rfl⟩
      obtain ⟨hit, hcps, hmvs⟩ := hrun
      rw [hcps, hmvs]
      constructor
      · omega
      · intro hneg
        rw [hit] at hneg
        by_cases he : it = max_iterations
        · omega
        · rw [if_neg he] at hneg
          omega

/-- C2 witness: the amended statement instantiated on a concrete
never-converging run with two iterations allowed. -/
theorem C2_servo_log_lengths_witness :
    (centre_on_template env0 locFar 640 480 1 2 false = Except.ok (runC2, envC2)) ∧
    (runC2.camera_positions.length = runC2.stage_moves.length + 1 ∧
      (runC2.iteration = -((2 : ℕ) : ℤ) → runC2.stage_moves.length = 2)) :=
  ⟨by decide, C2_servo_log_lengths env0 locFar 640 480 1 2 false runC2 envC2 (by decide)⟩

/-- C2 counterexample: with a never-converging locator and
`max_iterations = 2`, the returned camera-position log has length 3 while
the stage-move log has length 2 — the two logs are not of equal length, and
on failure to converge the camera log exceeds `max_iterations` by one. -/
theorem C2_counterexample :
    runLogLengths (centre_on_template env0 locFar 640 480 1 2 false) = some (3, 2) ∧
    (3 : ℕ) ≠ 2 := by
  decide

/-- C5 code bug: with a locator whose measurement becomes exactly centred
after one move, and `max_iterations = 1`, the run reaches the tolerance
(the final measured camera move `(0, 0)` does not exceed tolerance 1), yet
`centre_on_template` returns iteration `-1 = -max_iterations`, because the
sign flip is keyed on `iteration == max_iterations` alone — a run converging
on its final permitted iteration is reported as a failure, contradicting the
routine's own docstring (a negative value "denotes failure"). -/
theorem C5_negates_iteration_on_late_convergence :
    centre_on_template env0 locLastMinute 640 480 1 1 false =
      Except.ok
        ({ iteration := -1
           camera_positions := [(0, 0), (320, 240)]
           stage_moves := [(3176, 896, 0)] },
         { selfStage := { pos := (3176, 896, 0), sent := [Command.moveRel (0, -3176, -896)] }
           globalM := none }) ∧
    distExceeds (cameraMoveOf 640 480 (320, 240)) 1 = false := by
  decide

/-- C6 code bug: the end-of-run release is written `m.stage.release()` — the
module-level global `m`, not `self`.  With the hold-at-end flag false
(`rel = true`): (a) when the module is imported (no global `m`), the run
raises `NameError` instead of releasing anything; (b) when a global `m`
bound to a different microscope exists, the release command goes to that
other stage while the routine's own stage (whose command log stays empty)
is never released. -/
theorem C6_release_targets_global_m :
    centre_on_template env0 locCentred 640 480 1 10 true = Except.error RunError.nameError ∧
    centre_on_template envG locCentred 640 480 1 10 true =
      Except.ok
        ({ iteration := 0, camera_positions := [(320, 240)], stage_moves := [] },
         { selfStage := { pos := (0, 0, 0), sent := [] }
           globalM := some { pos := (0, 0, 0), sent := [Command.release] } }) ∧
    (({ pos := (0, 0, 0), sent := [] } : Stage)).sent.count Command.release = 0 := by
  decide

/-- C10: whenever the locator reports a template position inside the frame
extents, the camera offset computed by the measurement step (frame centre
minus template position) has each component within plus/minus half the
corresponding frame dimension, so both range `assert`s of
`_camera_centre_move` pass and the step returns normally. -/
theorem C10_camera_centre_move_asserts (width height x y : ℚ)
    (hx0 : 0 ≤ x) (hxw : x ≤ width) (hy0 : 0 ≤ y) (hyh : y ≤ height) :
    cameraCentreMove width height (x, y) =
      Except.ok ((-(x - width / 2), -(y - height / 2)), (x, y)) ∧
    |(-(x - width / 2))| ≤ width / 2 ∧ |(-(y - height / 2))| ≤ height / 2 := by
  have h1 : -(width / 2) ≤ -(x - width / 2) := by linarith
  have h2 : -(x - width / 2) ≤ width / 2 := by linarith
  have h3 : -(height / 2) ≤ -(y - height / 2) := by linarith
  have h4 : -(y - height / 2) ≤ height / 2 := by linarith
  refine ⟨?_, abs_le.mpr ⟨h1, h2⟩, abs_le.mpr ⟨h3, h4⟩⟩
  simp only [cameraCentreMove, cameraMoveOf]
  rw [if_pos ⟨⟨h1, h2⟩, h3, h4⟩]

/-- C10 witness: the measurement step at a concrete in-frame template
position `(10, 20)` in a 640 times 480 frame. -/
theorem C10_camera_centre_move_asserts_witness :
    ((0 : ℚ) ≤ 10 ∧ (10 : ℚ) ≤ 640 ∧ (0 : ℚ) ≤ 20 ∧ (20 : ℚ) ≤ 480) ∧
    (cameraCentreMove 640 480 (10, 20) =
      Except.ok ((-((10 : ℚ) - 640 / 2), -((20 : ℚ) - 480 / 2)), (10, 20)) ∧
      |(-((10 : ℚ) - 640 / 2))| ≤ 640 / 2 ∧ |(-((20 : ℚ) - 480 / 2))| ≤ 480 / 2) :=
  ⟨⟨by norm_num, by norm_num, by norm_num, by norm_num⟩,
    C10_camera_centre_move_asserts 640 480 10 20 (by norm_num) (by norm_num) (by norm_num)
      (by norm_num)⟩

/-! ### Claims about the calibration routine -/

/-- Subtracting a constant from every first component shifts the sum of
first components by the length times the constant. -/
theorem sum_map_fst_sub (xs : List (ℚ × ℚ)) (c : ℚ) :
    (xs.map fun p => p.1 - c).sum = (xs.map Prod.fst).sum - xs.length * c := by
  induction xs with
  | nil => simp
  | cons a t ih =>
    simp only [List.map_cons, List.sum_cons, ih, List.length_cons]
    push_cast
    ring

/-- Subtracting a constant from every second component shifts the sum of
second components by the length times the constant. -/
theorem sum_map_snd_sub (xs : List (ℚ × ℚ)) (c : ℚ) :
    (xs.map fun p => p.2 - c).sum = (xs.map Prod.snd).sum - xs.length * c := by
  induction xs with
  | nil => simp
  | cons a t ih =>
    simp only [List.map_cons, List.sum_cons, ih, List.length_cons]
    push_cast
    ring

/-- The calibration measurement loop appends exactly one camera sample and
one stage sample per waypoint. -/
theorem calibLoop_lengths (loc : ℕ → ℚ × ℚ) (ic : ℚ × ℚ) (isv : Vec3) (isp : ℤ × ℤ) :
    ∀ (ps : List Vec3) (k : ℕ) (st : Stage) (camAcc : List (ℚ × ℚ)) (stgAcc : List (ℤ × ℤ)),
      (calibLoop loc ic isv isp ps k st camAcc stgAcc).1.length = camAcc.length + ps.length ∧
      (calibLoop loc ic isv isp ps k st camAcc stgAcc).2.1.length =
        stgAcc.length + ps.length := by
  intro ps
  induction ps with
  | nil => intro k st camAcc stgAcc; simp [calibLoop]
  | cons p rest ih =>
    intro k st camAcc stgAcc
    simp only [calibLoop]
    constructor
    · rw [(ih _ _ _ _).1]
      simp only [List.length_append, List.length_cons, List.length_nil]
      omega
    · rw [(ih _ _ _ _).2]
      simp only [List.length_append, List.length_cons, List.length_nil]
      omega

/-- The routine `calibrate` always gathers exactly four camera-displacement samples. -/
theorem calibrateMeasure_length (st : Stage) (loc : ℕ → ℚ × ℚ) (D : ℤ) :
    (calibrateMeasure st loc D).1.length = 4 := by
  simp only [calibrateMeasure]
  rw [(calibLoop_lengths _ _ _ _ _ _ _ _ _).1]
  simp [posList]

/-- Mean-centering a nonempty sample list yields componentwise sums of
zero. -/
theorem meanCenter_sums_zero (xs : List (ℚ × ℚ)) (h : xs ≠ []) :
    ((meanCenter xs).map Prod.fst).sum = 0 ∧ ((meanCenter xs).map Prod.snd).sum = 0 := by
  have hlen0 : xs.length ≠ 0 := fun hl => h (List.length_eq_zero.mp hl)
  have hn : ((xs.length : ℚ)) ≠ 0 := Nat.cast_ne_zero.mpr hlen0
  have hcancel : ∀ S : ℚ, (xs.length : ℚ) * (S / (xs.length : ℚ)) = S := by
    intro S; field_simp
  constructor
  · simp only [meanCenter, List.map_map]
    have hc : (Prod.fst ∘ fun p : ℚ × ℚ =>
        (p.1 - (xs.map Prod.fst).sum / (xs.length : ℚ),
          p.2 - (xs.map Prod.snd).sum / (xs.length : ℚ))) =
        fun p : ℚ × ℚ => p.1 - (xs.map Prod.fst).sum / (xs.length : ℚ) := rfl
    rw [hc, sum_map_fst_sub, hcancel, sub_self]
  · simp only [meanCenter, List.map_map]
    have hc : (Prod.snd ∘ fun p : ℚ × ℚ =>
        (p.1 - (xs.map Prod.fst).sum / (xs.length : ℚ),
          p.2 - (xs.map Prod.snd).sum / (xs.length : ℚ))) =
        fun p : ℚ × ℚ => p.2 - (xs.map Prod.snd).sum / (xs.length : ℚ) := rfl
    rw [hc, sum_map_snd_sub, hcancel, sub_self]

/-- C7: before the least-squares solve, `calibrate` mean-centers the four
camera-displacement samples — each lstsq camera row equals the measured
sample minus the componentwise mean of the four samples, so the centered
rows sum to zero componentwise — while the stage-displacement samples are
passed to the solver exactly as measured, with no adjustment. -/
theorem C7_calibrate_mean_centering (st : Stage) (loc : ℕ → ℚ × ℚ) (D : ℤ) :
    (calibrateLstsqInputs st loc D).1 =
      (calibrateMeasure st loc D).1.map
        (fun p => (p.1 - ((calibrateMeasure st loc D).1.map Prod.fst).sum / 4,
          p.2 - ((calibrateMeasure st loc D).1.map Prod.snd).sum / 4)) ∧
    ((calibrateLstsqInputs st loc D).1.map Prod.fst).sum = 0 ∧
    ((calibrateLstsqInputs st loc D).1.map Prod.snd).sum = 0 ∧
    (calibrateLstsqInputs st loc D).2 = (calibrateMeasure st loc D).2.1 := by
  have hlen := calibrateMeasure_length st loc D
  have hne : (calibrateMeasure st loc D).1 ≠ [] := by
    intro hnil
    rw [hnil] at hlen
    simp at hlen
  have hz := meanCenter_sums_zero (calibrateMeasure st loc D).1 hne
  refine ⟨?_, ?_, ?_, rfl⟩
  · show meanCenter (calibrateMeasure st loc D).1 = _
    simp only [meanCenter, hlen]
    norm_num
  · exact hz.1
  · exact hz.2
